import Mathlib

/-!
Verification of the verso-agent video-generation material pipeline
(`skills/videogeneration/scripts/material.py`, `voice.py`, `generate.py`).

The Python code is shallowly embedded: pure functions become Lean
functions over `ℚ` (Python floats are modelled exactly by rationals;
every constant appearing in the code — 0.3, 0.4, 2.0, 3.0, 0.8 — is
exactly representable, and `int(n * 0.8)` agrees with `⌊4n/5⌋` for the
list sizes that occur), Python strings become `List Char`, and the two
I/O effects of the fetcher (provider search and clip download) become
explicit function parameters.
-/

/-- Record `MaterialInfo` (the `ClipCandidate` of the spec).
Modelled from the spec: the class lives in `schema.py`, which is not in
the sources; the fields `provider`, `url`, `duration` are the ones the
material pipeline reads and writes. -/
structure MaterialInfo where
  provider : String
  url : String
  duration : ℚ
deriving DecidableEq

/-- The score assigned to one candidate by `filter_by_quality`
(material.py lines 37-52): duration bucket 10..30 → 10, else 8..40 → 5,
else `duration ≥ minimum_duration` → 2, else 0; plus a +3 bonus for
`duration ≥ 15`. -/
def clipScore (minimum_duration : ℚ) (item : MaterialInfo) : ℚ :=
  (if 10 ≤ item.duration ∧ item.duration ≤ 30 then 10
   else if 8 ≤ item.duration ∧ item.duration ≤ 40 then 5
   else if minimum_duration ≤ item.duration then 2
   else 0)
  + (if 15 ≤ item.duration then 3 else 0)

/-- The comparison used by `scored_items.sort(key=lambda x: x[0], reverse=True)`:
stable descending order on the score component. -/
def scoreDescLE (a b : ℚ × MaterialInfo) : Bool :=
  decide (b.1 ≤ a.1)

/-- Model of `filter_by_quality` (material.py lines 17-64): score every item,
stable-sort descending by score, then keep everything when there are at
most 10 items and otherwise keep the first `max 10 (int(len * 0.8))`
items.  `int(len * 0.8)` on a Python float is `⌊4·len/5⌋` here. -/
def filter_by_quality (video_items : List MaterialInfo) (minimum_duration : ℚ) :
    List MaterialInfo :=
  if video_items = [] then []
  else
    let scored_items := video_items.map (fun it => (clipScore minimum_duration it, it))
    let sorted_items := scored_items.mergeSort scoreDescLE
    if sorted_items.length ≤ 10 then sorted_items.map (fun p => p.2)
    else (sorted_items.take (max 10 (4 * sorted_items.length / 5))).map (fun p => p.2)

/-- Retention count claimed by the spec for pools of more than 10 items:
top 80 % rounded UP, minimum 10.  Stated from the spec's words, for
comparison with the code's `max 10 (int(len * 0.8))`. -/
def specRetentionCount (n : ℕ) : ℕ :=
  max 10 ((4 * n + 4) / 5)

theorem fbq_of_le_ten {items : List MaterialInfo} {m : ℚ}
    (h : items.length ≤ 10) :
    filter_by_quality items m
      = ((items.map (fun it => (clipScore m it, it))).mergeSort scoreDescLE).map
          (fun p => p.2) := by
  unfold filter_by_quality
  rcases eq_or_ne items [] with rfl | hne
  · simp
  · simp only [if_neg hne]
    rw [if_pos]
    rw [List.length_mergeSort, List.length_map]
    exact h

theorem fbq_of_gt_ten {items : List MaterialInfo} {m : ℚ}
    (h : 10 < items.length) :
    filter_by_quality items m
      = (((items.map (fun it => (clipScore m it, it))).mergeSort scoreDescLE).take
          (max 10 (4 * items.length / 5))).map (fun p => p.2) := by
  unfold filter_by_quality
  have hne : items ≠ [] := by
    intro hnil; rw [hnil] at h; simp at h
  simp only [if_neg hne]
  rw [if_neg, List.length_mergeSort, List.length_map]
  rw [List.length_mergeSort, List.length_map]
  omega

theorem fbq_length (items : List MaterialInfo) (m : ℚ) :
    (filter_by_quality items m).length
      = if items.length ≤ 10 then items.length
        else max 10 (4 * items.length / 5) := by
  rcases le_or_lt items.length 10 with h | h
  · rw [fbq_of_le_ten h, if_pos h, List.length_map, List.length_mergeSort,
      List.length_map]
  · rw [fbq_of_gt_ten h, if_neg (by omega), List.length_map, List.length_take,
      List.length_mergeSort, List.length_map]
    omega

theorem fbq_perm_of_le_ten {items : List MaterialInfo} {m : ℚ}
    (h : items.length ≤ 10) :
    (filter_by_quality items m).Perm items := by
  rw [fbq_of_le_ten h]
  have h1 := List.mergeSort_perm (items.map (fun it => (clipScore m it, it))) scoreDescLE
  have h2 := h1.map (fun p : ℚ × MaterialInfo => p.2)
  refine h2.trans ?_
  rw [List.map_map]
  have hcomp : ((fun p : ℚ × MaterialInfo => p.2) ∘ fun it => (clipScore m it, it)) = id := rfl
  rw [hcomp, List.map_id]

theorem scoreDescLE_trans (a b c : ℚ × MaterialInfo) :
    scoreDescLE a b = true → scoreDescLE b c = true → scoreDescLE a c = true := by
  simp only [scoreDescLE, decide_eq_true_eq]
  exact fun h1 h2 => le_trans h2 h1

theorem scoreDescLE_total (a b : ℚ × MaterialInfo) :
    (scoreDescLE a b || scoreDescLE b a) = true := by
  simp only [scoreDescLE, Bool.or_eq_true, decide_eq_true_eq]
  exact le_total b.1 a.1

theorem repair_map {m : ℚ} :
    ∀ {l : List (ℚ × MaterialInfo)}, (∀ p ∈ l, p.1 = clipScore m p.2) →
      (l.map (fun p => p.2)).map (fun it => (clipScore m it, it)) = l := by
  intro l
  induction l with
  | nil => intro _; rfl
  | cons p rest ih =>
    intro h
    have hp : p.1 = clipScore m p.2 := h p (List.mem_cons_self p rest)
    have hrest := ih (fun q hq => h q (List.mem_cons_of_mem p hq))
    simp only [List.map_cons]
    rw [hrest]
    have : (clipScore m p.2, p.2) = p := by
      rcases p with ⟨s, it⟩
      simp only [Prod.mk.injEq]
      exact ⟨hp.symm, trivial⟩
    rw [this]

theorem mem_scored_fst {items : List MaterialInfo} {m : ℚ} :
    ∀ p ∈ items.map (fun it => (clipScore m it, it)), p.1 = clipScore m p.2 := by
  intro p hp
  rcases List.mem_map.mp hp with ⟨it, _, rfl⟩
  rfl

/-- Re-applying `filter_by_quality` is the identity whenever its first
output has at most 10 items: the second pass computes the same scores
(they depend only on duration), the stable sort leaves an already
sorted list unchanged, and the ≤-10 retention branch keeps everything. -/
theorem fbq_idem_of_small {items : List MaterialInfo} {m : ℚ}
    (h : (filter_by_quality items m).length ≤ 10) :
    filter_by_quality (filter_by_quality items m) m = filter_by_quality items m := by
  rcases eq_or_ne items [] with rfl | hne
  · rfl
  -- the first output, as `map (·.2)` of a score-faithful, score-sorted pair list
  obtain ⟨L, hfaith, hsorted, hout⟩ :
      ∃ L : List (ℚ × MaterialInfo),
        (∀ p ∈ L, p.1 = clipScore m p.2) ∧
        L.Pairwise (fun a b => scoreDescLE a b = true) ∧
        filter_by_quality items m = L.map (fun p => p.2) := by
    have hsort :=
      List.sorted_mergeSort scoreDescLE_trans scoreDescLE_total
        (items.map (fun it => (clipScore m it, it)))
    have hmem : ∀ p ∈ (items.map fun it => (clipScore m it, it)).mergeSort scoreDescLE,
        p.1 = clipScore m p.2 := by
      intro p hp
      exact mem_scored_fst p
        ((List.mergeSort_perm (items.map fun it => (clipScore m it, it)) scoreDescLE).mem_iff.mp hp)
    rcases le_or_lt items.length 10 with hle | hgt
    · exact ⟨_, hmem, hsort, fbq_of_le_ten hle⟩
    · refine ⟨_, ?_, ?_, fbq_of_gt_ten hgt⟩
      · intro p hp
        exact hmem p (List.take_subset _ _ hp)
      · exact List.Pairwise.sublist (List.take_sublist _ _) hsort
  rw [hout] at h ⊢
  rcases eq_or_ne (L.map (fun p => p.2)) [] with hnil | hne2
  · rw [hnil]; rfl
  unfold filter_by_quality
  rw [if_neg hne2]
  simp only [repair_map hfaith, List.mergeSort_of_sorted hsorted]
  rw [List.length_map] at h
  rw [if_pos h]

/-- Pairwise diversity contribution of one already-selected video
against the candidate (material.py lines 88-106): +0.4 / +0.2 for a
duration gap of more than 10 s / more than 5 s, +0.3 for a different
provider, +0.3 for a different URL. -/
def diversityContribution (existing new_video : MaterialInfo) : ℚ :=
  (if 10 < |existing.duration - new_video.duration| then 4/10
   else if 5 < |existing.duration - new_video.duration| then 2/10
   else 0)
  + (if existing.provider ≠ new_video.provider then 3/10 else 0)
  + (if existing.url ≠ new_video.url then 3/10 else 0)

/-- Model of `calculate_diversity_score` (material.py lines 67-109): 1.0 for an
empty selection, otherwise the average pairwise contribution.  The
`threshold` parameter is accepted, as in the Python signature, but never
read by the body. -/
def calculate_diversity_score (existing_videos : List MaterialInfo)
    (new_video : MaterialInfo) (threshold : ℚ) : ℚ :=
  if existing_videos = [] then 1
  else ((existing_videos.map (fun e => diversityContribution e new_video)).sum)
        / existing_videos.length

/-- Running selection of `download_videos`: `valid_video_items` plus the
raw `found_duration` counter.  `valid_video_urls` is always exactly
`valid_video_items.map (·.url)` (the two lists are appended in lockstep),
so it is not carried separately. -/
structure SelState where
  items : List MaterialInfo
  found_duration : ℚ
deriving DecidableEq

/-- One step of the primary merge (material.py lines 338-351): skip a
URL already selected; when `diversity_threshold > 0`, skip a candidate
whose diversity score is below the threshold; otherwise append it and
add its full duration to `found_duration`. -/
def mergeItem (diversity_threshold : ℚ) (st : SelState) (item : MaterialInfo) : SelState :=
  if item.url ∈ st.items.map (fun v => v.url) then st
  else if 0 < diversity_threshold ∧
      calculate_diversity_score st.items item diversity_threshold < diversity_threshold then st
  else ⟨st.items ++ [item], st.found_duration + item.duration⟩

/-- The primary merge of one search result list into the running
selection (the inner `for item in video_items` loop). -/
def primaryMergeList (diversity_threshold : ℚ) (st : SelState)
    (video_items : List MaterialInfo) : SelState :=
  video_items.foldl (mergeItem diversity_threshold) st

/-- The fallback merge (material.py lines 365-371): per-URL
deduplication only — no diversity check — and a `break` once
`found_duration` reaches `required_raw_duration * 2`, i.e.
`audio_duration * 3 * 2`, evaluated after each append. -/
def fallbackMergeList (audio_duration : ℚ) (st : SelState) :
    List MaterialInfo → SelState
  | [] => st
  | item :: rest =>
    if item.url ∈ st.items.map (fun v => v.url) then
      fallbackMergeList audio_duration st rest
    else
      let st' : SelState := ⟨st.items ++ [item], st.found_duration + item.duration⟩
      if audio_duration * 3 * 2 ≤ st'.found_duration then st'
      else fallbackMergeList audio_duration st' rest

/-- The search phase of `download_videos` (material.py lines 321-371):
primary searches for every term, then — only when `video_subject` is
non-empty and `found_duration < audio_duration * 3.0` — one fallback
search with `video_subject`, merged by `fallbackMergeList`.  The second
component instruments the phase with the list of search terms actually
sent to the provider. -/
def searchPrimary (search : String → List MaterialInfo) (search_terms : List String)
    (diversity_threshold : ℚ) : SelState :=
  search_terms.foldl (fun st t => primaryMergeList diversity_threshold st (search t)) ⟨[], 0⟩

/-- Search phase continued: after the primary loop, the optional
fallback search (see the comment above `searchPrimary`). -/
def searchPhase (search : String → List MaterialInfo) (search_terms : List String)
    (video_subject : String) (diversity_threshold audio_duration : ℚ) :
    SelState × List String :=
  if video_subject ≠ "" ∧
      (searchPrimary search search_terms diversity_threshold).found_duration
        < audio_duration * 3 then
    (fallbackMergeList audio_duration
       (searchPrimary search search_terms diversity_threshold) (search video_subject),
     search_terms ++ [video_subject])
  else (searchPrimary search search_terms diversity_threshold, search_terms)

/-- The fallback merge the spec claims: same per-URL deduplication AND
the same diversity filtering as the primary merge, with the early stop
at `audio_duration * 6`.  Stated from the spec's words, for comparison
with `fallbackMergeList`. -/
def specFallbackMergeList (diversity_threshold audio_duration : ℚ) (st : SelState) :
    List MaterialInfo → SelState
  | [] => st
  | item :: rest =>
    if item.url ∈ st.items.map (fun v => v.url) then
      specFallbackMergeList diversity_threshold audio_duration st rest
    else if 0 < diversity_threshold ∧
        calculate_diversity_score st.items item diversity_threshold < diversity_threshold then
      specFallbackMergeList diversity_threshold audio_duration st rest
    else
      let st' : SelState := ⟨st.items ++ [item], st.found_duration + item.duration⟩
      if audio_duration * 3 * 2 ≤ st'.found_duration then st'
      else specFallbackMergeList diversity_threshold audio_duration st' rest

/-- The material step of `generate_video_from_params`
(generate.py lines 222-232): `download_videos` is called without a
`video_subject` argument, so the search phase runs with the default
`video_subject = ""` from material.py line 319. -/
def generateSearchPhase (search : String → List MaterialInfo)
    (search_terms : List String) (diversity_threshold audio_duration : ℚ) :
    SelState × List String :=
  searchPhase search search_terms "" diversity_threshold audio_duration

/-- Result of the download pass of `download_videos` (material.py lines
387-417).  `video_paths` and `total_duration` are the Python locals;
`downloaded` (the items whose fetch succeeded) and `remaining` (the
items the `break` left unattempted) instrument the loop for the
statements below. -/
structure DLResult where
  video_paths : List String
  total_duration : ℚ
  downloaded : List MaterialInfo
  remaining : List MaterialInfo
deriving DecidableEq

/-- The download loop of `download_videos` (material.py lines 387-415):
for each item, attempt `save_video` (modelled by the `fetch` oracle;
`none` covers both an empty return and a raised-and-logged exception);
on success append the path, add the item's FULL duration to
`total_duration`, and `break` as soon as
`total_duration ≥ audio_duration * 2.0` and
`len(video_paths) ≥ 10` both hold. -/
def downloadLoop (fetch : MaterialInfo → Option String) (audio_duration : ℚ)
    (video_paths : List String) (total_duration : ℚ) (downloaded : List MaterialInfo) :
    List MaterialInfo → DLResult
  | [] => ⟨video_paths, total_duration, downloaded, []⟩
  | item :: rest =>
    match fetch item with
    | none => downloadLoop fetch audio_duration video_paths total_duration downloaded rest
    | some p =>
      let paths' := video_paths ++ [p]
      let total' := total_duration + item.duration
      if audio_duration * 2 ≤ total' ∧ 10 ≤ paths'.length then
        ⟨paths', total', downloaded ++ [item], rest⟩
      else downloadLoop fetch audio_duration paths' total' (downloaded ++ [item]) rest

/-- The download pass started on the selected items with fresh
counters, as `download_videos` does. -/
def downloadPass (fetch : MaterialInfo → Option String) (audio_duration : ℚ)
    (valid_video_items : List MaterialInfo) : DLResult :=
  downloadLoop fetch audio_duration [] 0 [] valid_video_items

/-- Usable duration in the spec's sense: the lesser of the clip's full
duration and the max-clip-duration cap.  Stated from the spec's words —
the code does NOT use it in the download pass. -/
def usableDuration (max_clip_duration : ℚ) (item : MaterialInfo) : ℚ :=
  min item.duration max_clip_duration

/-- Sum of usable durations of a list of clips (spec's "downloaded
usable duration"). -/
def usableSum (max_clip_duration : ℚ) (l : List MaterialInfo) : ℚ :=
  (l.map (usableDuration max_clip_duration)).sum

theorem downloadLoop_nil (fetch : MaterialInfo → Option String) (A : ℚ)
    (paths : List String) (total : ℚ) (dl : List MaterialInfo) :
    downloadLoop fetch A paths total dl [] = ⟨paths, total, dl, []⟩ := rfl

theorem downloadLoop_cons (fetch : MaterialInfo → Option String) (A : ℚ)
    (paths : List String) (total : ℚ) (dl : List MaterialInfo)
    (item : MaterialInfo) (rest : List MaterialInfo) :
    downloadLoop fetch A paths total dl (item :: rest)
      = match fetch item with
        | none => downloadLoop fetch A paths total dl rest
        | some p =>
          if A * 2 ≤ total + item.duration ∧ 10 ≤ (paths ++ [p]).length then
            ⟨paths ++ [p], total + item.duration, dl ++ [item], rest⟩
          else downloadLoop fetch A (paths ++ [p]) (total + item.duration)
            (dl ++ [item]) rest := rfl

theorem downloadLoop_spec (fetch : MaterialInfo → Option String) (A : ℚ) :
    ∀ (items : List MaterialInfo) (paths : List String) (total : ℚ)
      (dl : List MaterialInfo),
      ∃ added : List MaterialInfo,
        (downloadLoop fetch A paths total dl items).downloaded = dl ++ added ∧
        (downloadLoop fetch A paths total dl items).total_duration
          = total + (added.map (fun v => v.duration)).sum ∧
        (downloadLoop fetch A paths total dl items).video_paths.length
          = paths.length + added.length := by
  intro items
  induction items with
  | nil =>
    intro paths total dl
    exact ⟨[], by simp [downloadLoop_nil]⟩
  | cons item rest ih =>
    intro paths total dl
    rw [downloadLoop_cons]
    rcases hf : fetch item with _ | p
    · rcases ih paths total dl with ⟨added, h1, h2, h3⟩
      exact ⟨added, h1, h2, h3⟩
    · dsimp only
      by_cases hstop : A * 2 ≤ total + item.duration ∧ 10 ≤ (paths ++ [p]).length
      · refine ⟨[item], ?_⟩
        rw [if_pos hstop]
        refine ⟨rfl, by simp, by simp⟩
      · rw [if_neg hstop]
        rcases ih (paths ++ [p]) (total + item.duration) (dl ++ [item])
          with ⟨added, h1, h2, h3⟩
        refine ⟨item :: added, ?_, ?_, ?_⟩
        · rw [h1]; simp
        · rw [h2]; simp [add_assoc]
        · rw [h3]; simp; omega

theorem downloadLoop_stop_or_exhausted (fetch : MaterialInfo → Option String) (A : ℚ) :
    ∀ (items : List MaterialInfo) (paths : List String) (total : ℚ)
      (dl : List MaterialInfo),
      (A * 2 ≤ (downloadLoop fetch A paths total dl items).total_duration ∧
       10 ≤ (downloadLoop fetch A paths total dl items).video_paths.length)
      ∨ (downloadLoop fetch A paths total dl items).remaining = [] := by
  intro items
  induction items with
  | nil =>
    intro paths total dl
    right
    rw [downloadLoop_nil]
  | cons item rest ih =>
    intro paths total dl
    rw [downloadLoop_cons]
    rcases hf : fetch item with _ | p
    · exact ih paths total dl
    · dsimp only
      by_cases hstop : A * 2 ≤ total + item.duration ∧ 10 ≤ (paths ++ [p]).length
      · rw [if_pos hstop]
        left
        exact ⟨hstop.1, by simpa using hstop.2⟩
      · rw [if_neg hstop]
        exact ih (paths ++ [p]) (total + item.duration) (dl ++ [item])

/-- Python `str.strip()` on a string modelled as `List Char`. -/
def pyStrip (s : List Char) : List Char :=
  ((s.dropWhile (fun c => c.isWhitespace)).reverse.dropWhile
    (fun c => c.isWhitespace)).reverse

/-- One word-boundary cue fed by TTS (the `SpeechEvent` of the spec):
`start`/`stop` in seconds, `content` the cue's text (modelled
already HTML-unescaped, as `unescape(cue.content)` leaves plain text
unchanged). -/
structure SpeechCue where
  start : ℚ
  stop : ℚ
  content : List Char
deriving DecidableEq

/-- One emitted subtitle block, before SRT formatting: the arguments
`_create_fallback_subtitles` hands to its `formatter` (voice.py lines
252-255): index, start/end in 100 ns ticks, stripped text. -/
structure SubCue where
  idx : ℕ
  start : ℚ
  stop : ℚ
  text : List Char
deriving DecidableEq

/-- The loop of `_create_fallback_subtitles` (voice.py lines 257-287):
accumulate cue text; emit a block once the accumulated span reaches
`max_duration_per_line` or the current cue equals the last cue of the
list, but only when the accumulated text strips to something non-empty
(otherwise nothing is reset and accumulation continues). -/
def fallbackLoop (max_duration_per_line : ℚ) (last : SpeechCue) :
    List SpeechCue → List Char → Option ℚ → ℕ → List SubCue
  | [], _, _, _ => []
  | c :: rest, current_text, start_time, sub_index =>
    let start_micro := c.start * 10000000
    let end_micro := c.stop * 10000000
    let st := start_time.getD start_micro
    let cur' := current_text ++ c.content
    let current_duration := (end_micro - st) / 10000000
    if max_duration_per_line ≤ current_duration ∨ c = last then
      if pyStrip cur' ≠ [] then
        ⟨sub_index, st, end_micro, pyStrip cur'⟩ ::
          fallbackLoop max_duration_per_line last rest [] none (sub_index + 1)
      else fallbackLoop max_duration_per_line last rest cur' (some st) sub_index
    else fallbackLoop max_duration_per_line last rest cur' (some st) sub_index

/-- Model of `_create_fallback_subtitles` (voice.py lines 238-290): empty input
gives `[]`; otherwise run the grouping loop (default
`max_duration_per_line = 3.0`). -/
def create_fallback_subtitles (max_duration_per_line : ℚ)
    (cues : List SpeechCue) : List SubCue :=
  match cues.getLast? with
  | none => []
  | some last => fallbackLoop max_duration_per_line last cues [] none 1

/-- The characters removed by `clean_text` inside `_fuzzy_match_text`
(voice.py lines 201-204): Python `string.punctuation` plus the CJK
marks `，。！？；：、`.  A few ASCII characters are spelled via their
code points. -/
def pyPunctuationChars : List Char :=
  ['!', Char.ofNat 34, '#', '$', '%', '&', Char.ofNat 39, '(', ')', '*',
   '+', ',', '-', '.', '/', ':', ';', '<', '=', '>', '?', '@', '[',
   Char.ofNat 92, ']', Char.ofNat 94, '_', Char.ofNat 96, Char.ofNat 123,
   '|', Char.ofNat 125, '~',
   '，', '。', '！', '？', '；', '：', '、']

/-- Model of `clean_text` (voice.py lines 200-207): drop punctuation, drop all
whitespace (`''.join(t.split())`), lowercase. -/
def clean_text (t : List Char) : List Char :=
  ((t.filter (fun c => ¬ (c ∈ pyPunctuationChars))).filter
    (fun c => ¬ c.isWhitespace)).map Char.toLower

/-- The character set of a cleaned string, as Python `set(...)`. -/
def charSet (l : List Char) : Finset Char := l.toFinset

/-- Model of `_fuzzy_match_text` (voice.py lines 193-235): 0 when a cleaned side
is empty; 1 on cleaned equality; `shorter/longer` when one cleaned
string is a substring of the other; otherwise the character-set
Jaccard ratio. -/
def fuzzy_match_text (text1 text2 : List Char) : ℚ :=
  if clean_text text1 = [] ∨ clean_text text2 = [] then 0
  else if clean_text text1 = clean_text text2 then 1
  else if clean_text text1 <:+: clean_text text2
      ∨ clean_text text2 <:+: clean_text text1 then
    (min (clean_text text1).length (clean_text text2).length : ℚ)
      / (max (clean_text text1).length (clean_text text2).length : ℚ)
  else if (charSet (clean_text text1) ∪ charSet (clean_text text2)).card = 0 then 0
  else ((charSet (clean_text text1) ∩ charSet (clean_text text2)).card : ℚ)
    / ((charSet (clean_text text1) ∪ charSet (clean_text text2)).card : ℚ)

/-- The similarity the spec claims for the fourth comparison:
`|charSet(a) ∩ charSet(b)| / |charSet(a) ∪ charSet(b)|` over the
cleaned strings.  Stated from the spec's words, for comparison with
`fuzzy_match_text`. -/
def specCharSetSimilarity (text1 text2 : List Char) : ℚ :=
  ((charSet (clean_text text1) ∩ charSet (clean_text text2)).card : ℚ)
    / ((charSet (clean_text text1) ∪ charSet (clean_text text2)).card : ℚ)

/-- Python regex `\w` on the ASCII range: letters, digits, underscore. -/
def pyIsWordChar (c : Char) : Bool := c.isAlphanum || c = '_'

/-- Model of `re.sub(r"[^\w\s]", "", ·)`: keep word characters and whitespace. -/
def stripNonWordKeepSpace (l : List Char) : List Char :=
  l.filter (fun c => pyIsWordChar c || c.isWhitespace)

/-- Model of `re.sub(r"\W+", "", ·)`: keep only word characters. -/
def stripNonWord (l : List Char) : List Char :=
  l.filter pyIsWordChar

/-- Model of `match_line` inside `create_subtitle` (voice.py lines 319-352): out
of range gives `""`; then four comparisons in order — exact equality,
equality after `[^\w\s]` removal, equality after `\W+` removal, fuzzy
similarity at least 0.8 — each returning a stripped line, else `""`. -/
def match_line (script_lines : List (List Char)) (sub_line : List Char)
    (sub_index : ℕ) : List Char :=
  match script_lines[sub_index]? with
  | none => []
  | some line =>
    if sub_line = line then pyStrip line
    else if stripNonWordKeepSpace sub_line = stripNonWordKeepSpace line then
      pyStrip (stripNonWordKeepSpace line)
    else if stripNonWord sub_line = stripNonWord line then pyStrip line
    else if 8/10 ≤ fuzzy_match_text sub_line line then pyStrip line
    else []

theorem primaryMergeList_nil (dth : ℚ) (st : SelState) :
    primaryMergeList dth st [] = st := rfl

theorem primaryMergeList_cons (dth : ℚ) (st : SelState) (i : MaterialInfo)
    (rest : List MaterialInfo) :
    primaryMergeList dth st (i :: rest)
      = primaryMergeList dth (mergeItem dth st i) rest := rfl

theorem mergeItem_zero (st : SelState) (item : MaterialInfo) :
    mergeItem 0 st item
      = if item.url ∈ st.items.map (fun v => v.url) then st
        else ⟨st.items ++ [item], st.found_duration + item.duration⟩ := by
  unfold mergeItem
  by_cases h1 : item.url ∈ st.items.map (fun v => v.url)
  · rw [if_pos h1, if_pos h1]
  · rw [if_neg h1, if_neg h1, if_neg]
    rintro ⟨h0, -⟩
    exact lt_irrefl 0 h0

theorem fallbackMergeList_nil (A : ℚ) (st : SelState) :
    fallbackMergeList A st [] = st := rfl

theorem fallbackMergeList_cons (A : ℚ) (st : SelState) (item : MaterialInfo)
    (rest : List MaterialInfo) :
    fallbackMergeList A st (item :: rest)
      = if item.url ∈ st.items.map (fun v => v.url) then
          fallbackMergeList A st rest
        else if A * 3 * 2 ≤ st.found_duration + item.duration then
          ⟨st.items ++ [item], st.found_duration + item.duration⟩
        else fallbackMergeList A ⟨st.items ++ [item], st.found_duration + item.duration⟩
          rest := rfl

theorem primaryMergeList_items_extends (dth : ℚ) :
    ∀ (l : List MaterialInfo) (st : SelState),
      ∃ t, (primaryMergeList dth st l).items = st.items ++ t := by
  intro l
  induction l with
  | nil => exact fun st => ⟨[], by simp [primaryMergeList_nil]⟩
  | cons i rest ih =>
    intro st
    rcases ih (mergeItem dth st i) with ⟨t, ht⟩
    rw [primaryMergeList_cons, ht]
    unfold mergeItem
    by_cases h1 : i.url ∈ st.items.map (fun v => v.url)
    · exact ⟨t, by rw [if_pos h1]⟩
    · by_cases h2 : 0 < dth ∧ calculate_diversity_score st.items i dth < dth
      · exact ⟨t, by rw [if_neg h1, if_pos h2]⟩
      · exact ⟨i :: t, by rw [if_neg h1, if_neg h2]; simp⟩

theorem fallbackMergeList_eq_primary_zero (A : ℚ) :
    ∀ (l : List MaterialInfo) (st : SelState),
      (∀ i ∈ l, 0 ≤ i.duration) →
      st.found_duration + (l.map (fun v => v.duration)).sum < A * 3 * 2 →
      fallbackMergeList A st l = primaryMergeList 0 st l := by
  intro l
  induction l with
  | nil => intro st _ _; rfl
  | cons i rest ih =>
    intro st hnn hsm
    have hdnn : (0:ℚ) ≤ i.duration := hnn i (List.mem_cons_self i rest)
    have hsum_nn : (0:ℚ) ≤ (rest.map (fun v => v.duration)).sum := by
      apply List.sum_nonneg
      intro x hx
      rcases List.mem_map.mp hx with ⟨j, hj, rfl⟩
      exact hnn j (List.mem_cons_of_mem i hj)
    rw [List.map_cons, List.sum_cons] at hsm
    rw [fallbackMergeList_cons, primaryMergeList_cons, mergeItem_zero]
    by_cases h1 : i.url ∈ st.items.map (fun v => v.url)
    · rw [if_pos h1, if_pos h1]
      apply ih st (fun j hj => hnn j (List.mem_cons_of_mem i hj))
      linarith
    · have hstop : ¬ (A * 3 * 2 ≤ st.found_duration + i.duration) := by
        intro hc
        linarith
      rw [if_neg h1, if_neg hstop, if_neg h1]
      apply ih ⟨st.items ++ [i], st.found_duration + i.duration⟩
        (fun j hj => hnn j (List.mem_cons_of_mem i hj))
      simp only
      linarith

theorem primary_zero_items_prefix_fallback (A : ℚ) :
    ∀ (l : List MaterialInfo) (st : SelState),
      ∃ t, (primaryMergeList 0 st l).items = (fallbackMergeList A st l).items ++ t := by
  intro l
  induction l with
  | nil => exact fun st => ⟨[], by simp [primaryMergeList_nil, fallbackMergeList_nil]⟩
  | cons i rest ih =>
    intro st
    rw [fallbackMergeList_cons, primaryMergeList_cons, mergeItem_zero]
    by_cases h1 : i.url ∈ st.items.map (fun v => v.url)
    · rw [if_pos h1, if_pos h1]
      exact ih st
    · rw [if_neg h1, if_neg h1]
      by_cases h2 : A * 3 * 2 ≤ st.found_duration + i.duration
      · rw [if_pos h2]
        exact primaryMergeList_items_extends 0 rest _
      · rw [if_neg h2]
        exact ih _

theorem dropWhile_of_forall_not {p : Char → Bool} {l : List Char}
    (h : ∀ c ∈ l, p c = false) : l.dropWhile p = l := by
  cases l with
  | nil => rfl
  | cons a t =>
    rw [List.dropWhile_cons, h a (List.mem_cons_self a t)]
    simp

theorem pyStrip_of_no_ws {l : List Char}
    (h : ∀ c ∈ l, c.isWhitespace = false) : pyStrip l = l := by
  unfold pyStrip
  rw [dropWhile_of_forall_not h]
  rw [dropWhile_of_forall_not (fun c hc => h c (List.mem_reverse.mp hc))]
  exact List.reverse_reverse l

theorem fallbackLoop_nil (maxd : ℚ) (last : SpeechCue) (cur : List Char)
    (st : Option ℚ) (idx : ℕ) :
    fallbackLoop maxd last [] cur st idx = [] := rfl

theorem fallbackLoop_cons (maxd : ℚ) (last c : SpeechCue)
    (rest : List SpeechCue) (cur : List Char) (st : Option ℚ) (idx : ℕ) :
    fallbackLoop maxd last (c :: rest) cur st idx
      = if maxd ≤ (c.stop * 10000000 - st.getD (c.start * 10000000)) / 10000000
            ∨ c = last then
          if pyStrip (cur ++ c.content) ≠ [] then
            ⟨idx, st.getD (c.start * 10000000), c.stop * 10000000,
              pyStrip (cur ++ c.content)⟩ ::
              fallbackLoop maxd last rest [] none (idx + 1)
          else fallbackLoop maxd last rest (cur ++ c.content)
            (some (st.getD (c.start * 10000000))) idx
        else fallbackLoop maxd last rest (cur ++ c.content)
          (some (st.getD (c.start * 10000000))) idx := rfl

theorem fallbackLoop_concat (maxd : ℚ) (last : SpeechCue) :
    ∀ (cs : List SpeechCue) (cur : List Char) (st : Option ℚ) (idx : ℕ),
      cs.getLast? = some last →
      (∀ c ∈ cs, ∀ ch ∈ c.content, ch.isWhitespace = false) →
      (∀ ch ∈ cur, ch.isWhitespace = false) →
      ((fallbackLoop maxd last cs cur st idx).map SubCue.text).flatten
        = cur ++ (cs.map SpeechCue.content).flatten := by
  intro cs
  induction cs with
  | nil => intro cur st idx hlast; simp at hlast
  | cons c rest ih =>
    intro cur st idx hlast hws hcur
    have hcws : ∀ ch ∈ c.content, ch.isWhitespace = false :=
      hws c (List.mem_cons_self c rest)
    have hcur' : ∀ ch ∈ cur ++ c.content, ch.isWhitespace = false := by
      intro ch hch
      rcases List.mem_append.mp hch with h | h
      · exact hcur ch h
      · exact hcws ch h
    have hstrip : pyStrip (cur ++ c.content) = cur ++ c.content :=
      pyStrip_of_no_ws hcur'
    rw [fallbackLoop_cons]
    cases rest with
    | nil =>
      have hc : c = last := by
        rw [List.getLast?_singleton] at hlast
        exact Option.some.inj hlast
      rw [if_pos (Or.inr hc)]
      by_cases hne : pyStrip (cur ++ c.content) ≠ []
      · rw [if_pos hne]
        simp only [List.map_cons, List.flatten_cons, fallbackLoop_nil,
          List.map_nil, List.flatten_nil, List.append_nil, hstrip]
      · rw [if_neg hne]
        rw [not_not, hstrip] at hne
        simp [fallbackLoop_nil, hne]
    | cons d rest' =>
      have hlast' : (d :: rest').getLast? = some last := by
        rw [List.getLast?_cons_cons] at hlast
        exact hlast
      have hws' : ∀ x ∈ d :: rest', ∀ ch ∈ x.content, ch.isWhitespace = false :=
        fun x hx => hws x (List.mem_cons_of_mem c hx)
      by_cases hcond : maxd ≤ (c.stop * 10000000 - st.getD (c.start * 10000000)) / 10000000
          ∨ c = last
      · rw [if_pos hcond]
        by_cases hne : pyStrip (cur ++ c.content) ≠ []
        · rw [if_pos hne]
          rw [List.map_cons, List.flatten_cons, hstrip]
          rw [ih [] none (idx + 1) hlast' hws' (by intro ch hch; simp at hch)]
          simp [List.append_assoc]
        · rw [if_neg hne]
          rw [ih (cur ++ c.content) _ idx hlast' hws' hcur']
          simp [List.append_assoc]
      · rw [if_neg hcond]
        rw [ih (cur ++ c.content) _ idx hlast' hws' hcur']
        simp [List.append_assoc]

/-- A clip of 100 s, far above the 5 s max-clip-duration cap. -/
def cClip : MaterialInfo := ⟨"p", "u", 100⟩

/-- A fetch oracle on which every download succeeds. -/
def cFetch : MaterialInfo → Option String := fun _ => some "path"

/-- Eleven long clips: one more than the minimum-unique-sources bound. -/
def cItems11 : List MaterialInfo :=
  [cClip, cClip, cClip, cClip, cClip, cClip, cClip, cClip, cClip, cClip, cClip]

/-- C1, counterexample: with `audio_duration = 100`, a max-clip cap of
5 s and eleven 100 s clips that all download, the loop stops after ten
clips with only `10 × min(100,5) = 50 < 200` seconds of USABLE
duration, and the eleventh candidate was never attempted — so neither
disjunct of the claim holds. -/
theorem C1_counterexample :
    ¬ ((100 * 2 ≤ usableSum 5 (downloadPass cFetch 100 cItems11).downloaded ∧
        10 ≤ (downloadPass cFetch 100 cItems11).video_paths.length)
       ∨ (downloadPass cFetch 100 cItems11).remaining = []) := by
  norm_num [downloadPass, downloadLoop_cons, downloadLoop_nil, cFetch, cItems11,
    cClip, usableSum, usableDuration, min_def]

/-- C1 (amended): when `download_videos`'s download pass returns, either
the FULL-duration counter `total_duration` has reached
`audio_duration * 2.0` and at least 10 paths were recorded, or every
candidate was attempted (`remaining = []`) and whatever was downloaded
is returned. -/
theorem C1_stop_or_exhausted (fetch : MaterialInfo → Option String)
    (audio_duration : ℚ) (valid_video_items : List MaterialInfo) :
    (audio_duration * 2 ≤ (downloadPass fetch audio_duration valid_video_items).total_duration ∧
     10 ≤ (downloadPass fetch audio_duration valid_video_items).video_paths.length)
    ∨ (downloadPass fetch audio_duration valid_video_items).remaining = [] :=
  downloadLoop_stop_or_exhausted fetch audio_duration valid_video_items [] 0 []

/-- C2, counterexample: a successful fetch of a 100 s clip adds 100 to
`total_duration`, not the usable `min(100, 5) = 5` the claim states. -/
theorem C2_counterexample :
    (downloadPass cFetch 100 [cClip]).downloaded = [cClip] ∧
    (downloadPass cFetch 100 [cClip]).total_duration = 100 ∧
    usableSum 5 [cClip] = 5 ∧
    (downloadPass cFetch 100 [cClip]).total_duration ≠ usableSum 5 [cClip] := by
  norm_num [downloadPass, downloadLoop_cons, downloadLoop_nil, cFetch, cClip,
    usableSum, usableDuration, min_def]

/-- C2 (amended): each successful fetch adds the clip's FULL duration to
the `total_duration` counter that feeds the stop condition, so on return
the counter equals the sum of the full durations of the downloaded
clips. -/
theorem C2_total_is_full_duration_sum (fetch : MaterialInfo → Option String)
    (audio_duration : ℚ) (valid_video_items : List MaterialInfo) :
    (downloadPass fetch audio_duration valid_video_items).total_duration
      = (((downloadPass fetch audio_duration valid_video_items).downloaded).map
          (fun v => v.duration)).sum := by
  rcases downloadLoop_spec fetch audio_duration valid_video_items [] 0 []
    with ⟨added, h1, h2, h3⟩
  unfold downloadPass
  rw [h2, h1]
  simp

/-- C6, counterexample: a candidate whose duration 1 is below
`minimum_duration = 5` is NOT excluded — `filter_by_quality` returns
it. -/
theorem C6_counterexample :
    filter_by_quality [⟨"p", "u", 1⟩] 5 = [⟨"p", "u", 1⟩] ∧
    (⟨"p", "u", 1⟩ : MaterialInfo).duration < 5 := by
  constructor
  · rw [fbq_of_le_ten (by simp)]
    simp [List.mergeSort_singleton]
  · norm_num

/-- C6 (amended): `filter_by_quality` performs no duration-based
exclusion at all: every candidate — whatever its duration — survives
unless the post-scoring retention cutoff trims it; in particular for
pools of at most 10 items the output is a permutation of the input. -/
theorem C6_no_duration_exclusion {items : List MaterialInfo} {m : ℚ}
    (h : items.length ≤ 10) :
    (filter_by_quality items m).Perm items :=
  fbq_perm_of_le_ten h

/-- Witness for C6 at the one-element pool of the counterexample. -/
theorem C6_witness :
    (filter_by_quality [⟨"p", "u", 1⟩] 5).Perm [⟨"p", "u", 1⟩] :=
  C6_no_duration_exclusion (by simp)

/-- Sixteen identical 12 s clips: a pool where floor-80 % and
ceil-80 % retention differ. -/
def cL16 : List MaterialInfo := List.replicate 16 ⟨"p", "u", 12⟩

/-- C7, counterexample: on 16 scored items the code keeps
`max 10 (int(16 * 0.8)) = 12`, not the claimed
`max 10 ⌈16 × 0.8⌉ = 13` (top 80 % rounded UP). -/
theorem C7_counterexample :
    (filter_by_quality cL16 5).length = 12 ∧
    specRetentionCount cL16.length = 13 ∧
    (filter_by_quality cL16 5).length ≠ specRetentionCount cL16.length := by
  have hlen : cL16.length = 16 := by simp [cL16]
  rw [fbq_length, hlen]
  norm_num [specRetentionCount]

/-- C7 (amended): at most 10 items — all kept; more than 10 — exactly
`max 10 ⌊len × 0.8⌋` kept (top 80 % rounded DOWN, never fewer than
10); consequently at least 10 are kept whenever at least 10 are
scored. -/
theorem C7_retention_policy (items : List MaterialInfo) (m : ℚ) :
    (items.length ≤ 10 → (filter_by_quality items m).length = items.length) ∧
    (10 < items.length →
      (filter_by_quality items m).length = max 10 (4 * items.length / 5)) ∧
    (10 ≤ items.length → 10 ≤ (filter_by_quality items m).length) := by
  refine ⟨?_, ?_, ?_⟩
  · intro h
    rw [fbq_length, if_pos h]
  · intro h
    rw [fbq_length, if_neg (by omega)]
  · intro h
    rw [fbq_length]
    rcases le_or_lt items.length 10 with h2 | h2
    · rw [if_pos h2]; exact h
    · rw [if_neg (by omega)]; omega

/-- Witness for C7 on the 16-item pool. -/
theorem C7_witness :
    10 < cL16.length ∧
    (filter_by_quality cL16 5).length = max 10 (4 * cL16.length / 5) :=
  ⟨by simp [cL16], (C7_retention_policy cL16 5).2.1 (by simp [cL16])⟩

/-- C8, counterexample: re-scoring is NOT idempotent on a 16-item pool:
the first pass keeps 12 items, the second pass trims those 12 to
`max 10 (int(12 * 0.8)) = 10`, so the output changes. -/
theorem C8_counterexample :
    filter_by_quality (filter_by_quality cL16 5) 5 ≠ filter_by_quality cL16 5 := by
  intro heq
  have h1 : (filter_by_quality cL16 5).length = 12 := by
    rw [fbq_length]
    norm_num [cL16]
  have h2 : (filter_by_quality (filter_by_quality cL16 5) 5).length = 10 := by
    rw [fbq_length, h1]
    norm_num
  rw [heq, h1] at h2
  exact absurd h2 (by norm_num)

/-- C8 (amended): re-applying `filter_by_quality` with identical inputs
returns the identical list — in identical order — whenever the first
output has at most 10 items (stable sort plus keep-all branch); larger
outputs are trimmed again by the retention cutoff. -/
theorem C8_rescoring_idempotent (items : List MaterialInfo) (m : ℚ)
    (h : (filter_by_quality items m).length ≤ 10) :
    filter_by_quality (filter_by_quality items m) m = filter_by_quality items m :=
  fbq_idem_of_small h

/-- Witness for C8 on a one-element pool. -/
theorem C8_witness :
    filter_by_quality (filter_by_quality [⟨"p", "u", 1⟩] 5) 5
      = filter_by_quality [⟨"p", "u", 1⟩] 5 :=
  C8_rescoring_idempotent _ _ (by rw [fbq_length]; norm_num)

/-- C9: `generate_video_from_params` passes no `video_subject`, so the
search phase runs with the default `""` and the fallback-widening branch
is never executed: the result is the primary selection and the only
queried terms are the primary ones. -/
theorem C9_no_fallback_in_pipeline
    (search : String → List MaterialInfo) (search_terms : List String)
    (diversity_threshold audio_duration : ℚ) :
    generateSearchPhase search search_terms diversity_threshold audio_duration
      = (searchPrimary search search_terms diversity_threshold, search_terms) := by
  unfold generateSearchPhase searchPhase
  simp

/-- First selected clip for the C3 scenario. -/
def cV1 : MaterialInfo := ⟨"p", "u1", 20⟩

/-- Fallback candidate: same provider and duration as `cV1`, different
URL — average diversity score 0.3 against `[cV1]`. -/
def cV2 : MaterialInfo := ⟨"p", "u2", 20⟩

/-- Search oracle for the C3 scenario: the subject query returns the
low-diversity clip, every primary term returns `cV1`. -/
def cSearch : String → List MaterialInfo :=
  fun t => if t = "subj" then [cV2] else [cV1]

theorem cSearch_t : cSearch "t" = [cV1] := by
  unfold cSearch
  rw [if_neg (by decide)]

theorem cSearch_subj : cSearch "subj" = [cV2] := by
  unfold cSearch
  rw [if_pos rfl]

theorem cDiv_eval : calculate_diversity_score [cV1] cV2 (1/2) = 3/10 := by
  have hurl : ¬ ("u1" : String) = "u2" := by decide
  norm_num [calculate_diversity_score, diversityContribution, hurl, cV1, cV2]

theorem cPrimary_eval : searchPrimary cSearch ["t"] (1/2) = ⟨[cV1], 20⟩ := by
  unfold searchPrimary
  simp only [List.foldl_cons, List.foldl_nil, cSearch_t]
  rw [primaryMergeList_cons, primaryMergeList_nil]
  unfold mergeItem
  rw [if_neg (by simp), if_neg (by
    rintro ⟨-, hlt⟩
    rw [show calculate_diversity_score [] cV1 (1/2) = 1 from rfl] at hlt
    norm_num at hlt)]
  show (⟨[] ++ [cV1], 0 + cV1.duration⟩ : SelState) = ⟨[cV1], 20⟩
  norm_num [cV1]

theorem cFallback_eval :
    fallbackMergeList 100 ⟨[cV1], 20⟩ [cV2] = ⟨[cV1, cV2], 40⟩ := by
  rw [fallbackMergeList_cons]
  rw [if_neg (by decide), if_neg (by norm_num [cV2]), fallbackMergeList_nil]
  norm_num [cV1, cV2]

/-- C3, counterexample: with threshold 0.5 the fallback merge accepts a
clip whose diversity score 0.3 is below the threshold — the primary
merge's diversity filter, which the claim says is applied "the same
way", would have rejected it (the spec-faithful merge leaves the state
unchanged). -/
theorem C3_counterexample :
    (searchPhase cSearch ["t"] "subj" (1/2) 100).1.items = [cV1, cV2] ∧
    calculate_diversity_score [cV1] cV2 (1/2) < 1/2 ∧
    specFallbackMergeList (1/2) 100 ⟨[cV1], 20⟩ [cV2] = ⟨[cV1], 20⟩ := by
  refine ⟨?_, by rw [cDiv_eval]; norm_num, ?_⟩
  · unfold searchPhase
    rw [cPrimary_eval]
    rw [if_pos ⟨by decide, by norm_num⟩, cSearch_subj, cFallback_eval]
  · simp only [specFallbackMergeList]
    rw [if_neg (by decide), if_pos ⟨by norm_num, by rw [cDiv_eval]; norm_num⟩]

/-- C3 (amended): when raw found duration after the primary searches is
below `audio_duration × 3` and a fallback subject is configured, exactly
one additional search is issued with that subject and its results are
merged with the same per-URL deduplication but WITHOUT the diversity
filter (exactly a primary merge with the filter disabled, i.e. threshold
0), stopping early once raw found duration reaches `audio_duration × 6`;
below that bound the merge coincides with the diversity-free primary
merge, and in general it selects a prefix of what the diversity-free
primary merge would select. -/
theorem C3_fallback_single_search_dedup_only
    (search : String → List MaterialInfo) (search_terms : List String)
    (video_subject : String) (diversity_threshold audio_duration : ℚ)
    (hsub : video_subject ≠ "")
    (hfound : (searchPrimary search search_terms diversity_threshold).found_duration
        < audio_duration * 3)
    (hnn : ∀ i ∈ search video_subject, 0 ≤ i.duration)
    (hsmall : (searchPrimary search search_terms diversity_threshold).found_duration
        + ((search video_subject).map (fun v => v.duration)).sum
        < audio_duration * 3 * 2) :
    (searchPhase search search_terms video_subject diversity_threshold audio_duration).2
      = search_terms ++ [video_subject] ∧
    (searchPhase search search_terms video_subject diversity_threshold audio_duration).1
      = primaryMergeList 0 (searchPrimary search search_terms diversity_threshold)
          (search video_subject) ∧
    ∀ (l : List MaterialInfo) (st : SelState), ∃ t,
      (primaryMergeList 0 st l).items
        = (fallbackMergeList audio_duration st l).items ++ t := by
  unfold searchPhase
  rw [if_pos ⟨hsub, hfound⟩]
  exact ⟨rfl,
    fallbackMergeList_eq_primary_zero audio_duration (search video_subject) _ hnn hsmall,
    primary_zero_items_prefix_fallback audio_duration⟩

/-- Witness for C3 on the concrete scenario of the counterexample. -/
theorem C3_witness :
    (searchPhase cSearch ["t"] "subj" (1/2) 100).2 = ["t"] ++ ["subj"] ∧
    (searchPhase cSearch ["t"] "subj" (1/2) 100).1
      = primaryMergeList 0 (searchPrimary cSearch ["t"] (1/2)) (cSearch "subj") ∧
    ∀ (l : List MaterialInfo) (st : SelState), ∃ t,
      (primaryMergeList 0 st l).items = (fallbackMergeList 100 st l).items ++ t :=
  C3_fallback_single_search_dedup_only cSearch ["t"] "subj" (1/2) 100
    (by decide)
    (by rw [cPrimary_eval]; norm_num)
    (by
      simp only [cSearch_subj, List.mem_singleton]
      rintro i rfl
      norm_num [cV2])
    (by
      rw [cPrimary_eval, cSearch_subj]
      norm_num [cV2])

/-- C4, counterexample: one whitespace-only word-boundary event — a
non-empty event sequence — yields NO cue at all: the accumulated text
strips to empty, so emission is skipped and the claim's "at least one
cue" fails (and so does the text-concatenation equality). -/
theorem C4_counterexample :
    create_fallback_subtitles 3 [⟨0, 1, [' ']⟩] = [] ∧
    ([⟨0, 1, [' ']⟩] : List SpeechCue) ≠ [] := by
  constructor
  · show fallbackLoop 3 ⟨0, 1, [' ']⟩ [⟨0, 1, [' ']⟩] [] none 1 = []
    rw [fallbackLoop_cons, if_pos (Or.inr rfl),
      if_neg (by decide : ¬ (pyStrip ([] ++ (⟨0, 1, [' ']⟩ : SpeechCue).content) ≠ [])),
      fallbackLoop_nil]
  · exact List.cons_ne_nil _ _

/-- C4 (amended): for every event sequence whose texts contain no
whitespace characters, the fallback strategy's concatenated cue texts
equal the concatenated event texts, and at least one cue is emitted
whenever some event text is non-empty.  (The stripping at cue
boundaries makes both parts fail for whitespace-bearing texts, as the
counterexample shows.) -/
theorem C4_fallback_concat_and_nonempty
    (cues : List SpeechCue) (maxd : ℚ)
    (hws : ∀ c ∈ cues, ∀ ch ∈ c.content, ch.isWhitespace = false) :
    ((create_fallback_subtitles maxd cues).map SubCue.text).flatten
      = (cues.map SpeechCue.content).flatten ∧
    ((∃ c ∈ cues, c.content ≠ []) → create_fallback_subtitles maxd cues ≠ []) := by
  rcases hlast : cues.getLast? with _ | last
  · have hnil : cues = [] := by
      cases cues with
      | nil => rfl
      | cons a t => simp [List.getLast?_concat] at hlast
    subst hnil
    constructor
    · rfl
    · rintro ⟨c, hc, -⟩
      cases hc
  · have hcfs : create_fallback_subtitles maxd cues
        = fallbackLoop maxd last cues [] none 1 := by
      unfold create_fallback_subtitles
      rw [hlast]
    have hconcat : ((create_fallback_subtitles maxd cues).map SubCue.text).flatten
        = (cues.map SpeechCue.content).flatten := by
      rw [hcfs]
      have := fallbackLoop_concat maxd last cues [] none 1 hlast hws
        (by intro ch hch; cases hch)
      simpa using this
    refine ⟨hconcat, ?_⟩
    rintro ⟨c, hc, hne⟩ hnil
    rw [hnil] at hconcat
    exact hne (List.flatten_eq_nil_iff.mp hconcat.symm c.content
      (List.mem_map_of_mem SpeechCue.content hc))

/-- Witness for C4 at a single non-whitespace event. -/
theorem C4_witness :
    ((create_fallback_subtitles 3 [⟨0, 1, ['a']⟩]).map SubCue.text).flatten
      = (([⟨0, 1, ['a']⟩] : List SpeechCue).map SpeechCue.content).flatten ∧
    ((∃ c ∈ ([⟨0, 1, ['a']⟩] : List SpeechCue), c.content ≠ []) →
      create_fallback_subtitles 3 [⟨0, 1, ['a']⟩] ≠ []) :=
  C4_fallback_concat_and_nonempty [⟨0, 1, ['a']⟩] 3 (by decide)

/-- C5, counterexample: for `"ab"` against `"abab"` (cleaned forms both
non-empty) the code's similarity takes the containment branch,
`2/4 = 0.5`, while the claimed character-set Jaccard value is
`|{a,b}| / |{a,b}| = 1`. -/
theorem C5_counterexample :
    fuzzy_match_text ['a', 'b'] ['a', 'b', 'a', 'b'] = 1/2 ∧
    specCharSetSimilarity ['a', 'b'] ['a', 'b', 'a', 'b'] = 1 ∧
    fuzzy_match_text ['a', 'b'] ['a', 'b', 'a', 'b']
      ≠ specCharSetSimilarity ['a', 'b'] ['a', 'b', 'a', 'b'] := by
  have hf : fuzzy_match_text ['a', 'b'] ['a', 'b', 'a', 'b'] = 1/2 := by
    unfold fuzzy_match_text
    rw [if_neg (by decide), if_neg (by decide), if_pos (by decide)]
    rw [show (clean_text ['a', 'b']).length = 2 from by decide,
      show (clean_text ['a', 'b', 'a', 'b']).length = 4 from by decide]
    norm_num
  have hs : specCharSetSimilarity ['a', 'b'] ['a', 'b', 'a', 'b'] = 1 := by
    unfold specCharSetSimilarity
    rw [show (charSet (clean_text ['a', 'b'])
        ∩ charSet (clean_text ['a', 'b', 'a', 'b'])).card = 2 from by decide,
      show (charSet (clean_text ['a', 'b'])
        ∪ charSet (clean_text ['a', 'b', 'a', 'b'])).card = 2 from by decide]
    norm_num
  refine ⟨hf, hs, ?_⟩
  rw [hf, hs]
  norm_num

/-- C5 (amended): the similarity of the fourth comparison equals the
character-set Jaccard of the cleaned strings whenever neither cleaned
string is a substring of the other (equal strings and containments take
the earlier 1.0 / shorter-over-longer branches instead); and a
`match_line` match that passes none of the first three comparisons can
only succeed with similarity at least 0.8. -/
theorem C5_similarity_characterization
    (text1 text2 : List Char)
    (h1 : clean_text text1 ≠ [])
    (h2 : clean_text text2 ≠ [])
    (h3 : ¬ (clean_text text1 <:+: clean_text text2
        ∨ clean_text text2 <:+: clean_text text1)) :
    fuzzy_match_text text1 text2 = specCharSetSimilarity text1 text2 ∧
    (∀ (script_lines : List (List Char)) (sub_line line : List Char) (i : ℕ),
      script_lines[i]? = some line →
      match_line script_lines sub_line i ≠ [] →
      sub_line ≠ line →
      stripNonWordKeepSpace sub_line ≠ stripNonWordKeepSpace line →
      stripNonWord sub_line ≠ stripNonWord line →
      8/10 ≤ fuzzy_match_text sub_line line) := by
  constructor
  · have hne : clean_text text1 ≠ clean_text text2 := by
      intro he
      exact h3 (Or.inl (he ▸ List.infix_rfl))
    have hcard : ¬ ((charSet (clean_text text1) ∪ charSet (clean_text text2)).card = 0) := by
      intro h0
      rw [Finset.card_eq_zero, Finset.union_eq_empty] at h0
      apply h1
      have := h0.1
      unfold charSet at this
      rwa [List.toFinset_eq_empty_iff] at this
    unfold fuzzy_match_text specCharSetSimilarity
    rw [if_neg (by rintro (h | h); exacts [h1 h, h2 h]), if_neg hne, if_neg h3,
      if_neg hcard]
  · intro script_lines sub_line line i hline hmatch hne1 hne2 hne3
    unfold match_line at hmatch
    rw [hline] at hmatch
    dsimp only at hmatch
    rw [if_neg hne1, if_neg hne2, if_neg hne3] at hmatch
    by_cases h : 8/10 ≤ fuzzy_match_text sub_line line
    · exact h
    · rw [if_neg h] at hmatch
      exact absurd rfl hmatch

/-- Witness for C5 at `"ab"` vs `"bc"` (non-empty cleans, no
containment either way). -/
theorem C5_witness :
    fuzzy_match_text ['a', 'b'] ['b', 'c']
      = specCharSetSimilarity ['a', 'b'] ['b', 'c'] ∧
    (∀ (script_lines : List (List Char)) (sub_line line : List Char) (i : ℕ),
      script_lines[i]? = some line →
      match_line script_lines sub_line i ≠ [] →
      sub_line ≠ line →
      stripNonWordKeepSpace sub_line ≠ stripNonWordKeepSpace line →
      stripNonWord sub_line ≠ stripNonWord line →
      8/10 ≤ fuzzy_match_text sub_line line) :=
  C5_similarity_characterization ['a', 'b'] ['b', 'c']
    (by decide) (by decide) (by decide)

/-- C10: `calculate_diversity_score` never reads its `threshold`
parameter, so its value is identical for any two thresholds; the
threshold only affects the accept test at the call site. -/
theorem C10_diversity_threshold_irrelevant
    (existing_videos : List MaterialInfo) (new_video : MaterialInfo) (t1 t2 : ℚ) :
    calculate_diversity_score existing_videos new_video t1
      = calculate_diversity_score existing_videos new_video t2 := rfl
